import Mathlib

/-!
Verification of the cachetop metrics-to-visualization pipeline.

The definitions below are a shallow embedding of `cachetop.py`:
Python non-negative integer counters become `Nat`, Python `float`
arithmetic on ratios becomes exact `Rat` arithmetic, Python `int(...)`
truncation becomes `pyInt`, Python strings of rendered output become
`List Char` (one entry per code point), and the monitor loop becomes an
explicit step function over a list of poll results.
-/

namespace Cachetop

/-- A raw sample: the seven counters parsed from the reporting command
plus the cache-pool size in bytes (`get_lvm_cache_stats`, parsing part). -/
structure RawSample where
  total_blocks : ℕ
  used_blocks : ℕ
  dirty_blocks : ℕ
  read_hits : ℕ
  read_misses : ℕ
  write_hits : ℕ
  write_misses : ℕ
  pool_size_bytes : ℕ

/-- Python `int(x)` on a rational value: truncation toward zero. -/
def pyInt (q : ℚ) : ℤ := if q < 0 then ⌈q⌉ else ⌊q⌋

/-- Python `'c' * n` where `n` may be a negative integer: the empty
string results for `n ≤ 0`. -/
def pyRepeat (c : Char) (n : ℤ) : List Char := List.replicate n.toNat c

/-- The dict returned by `get_lvm_cache_stats` (lines 157-177). -/
structure Stats where
  total_blocks : ℕ
  used_blocks : ℕ
  dirty_blocks : ℕ
  cache_usage_pct : ℚ
  dirty_ratio_pct : ℚ
  hit_ratio_pct : ℚ
  read_hit_ratio_pct : ℚ
  write_hit_ratio_pct : ℚ
  read_hits : ℕ
  read_misses : ℕ
  write_hits : ℕ
  write_misses : ℕ
  total_reads : ℕ
  total_writes : ℕ
  total_ops : ℕ
  block_size : ℕ
  pool_size_bytes : ℕ
  estimated_read_blocks : ℤ
  estimated_write_blocks : ℤ

/-- The metric-derivation part of `get_lvm_cache_stats` (lines 129-177):
from the parsed counters to the stats dict.  Python float ratios are
embedded as exact rationals; `int(...)` is `pyInt`. -/
def get_lvm_cache_stats (s : RawSample) : Stats :=
  let block_size := if s.total_blocks > 0 then s.pool_size_bytes / s.total_blocks else 4096
  let cache_usage_pct : ℚ :=
    if s.total_blocks > 0 then (s.used_blocks : ℚ) / s.total_blocks * 100 else 0
  let dirty_ratio_pct : ℚ :=
    if s.total_blocks > 0 then (s.dirty_blocks : ℚ) / s.total_blocks * 100 else 0
  let total_reads := s.read_hits + s.read_misses
  let total_writes := s.write_hits + s.write_misses
  let total_ops := total_reads + total_writes
  let hit_ratio_pct : ℚ :=
    if total_ops > 0 then ((s.read_hits : ℚ) + s.write_hits) / total_ops * 100 else 0
  let read_hit_ratio_pct : ℚ :=
    if total_reads > 0 then (s.read_hits : ℚ) / total_reads * 100 else 0
  let write_hit_ratio_pct : ℚ :=
    if total_writes > 0 then (s.write_hits : ℚ) / total_writes * 100 else 0
  let read_weight : ℚ := if total_ops > 0 then (total_reads : ℚ) / total_ops else 1/2
  let estimated_read_blocks : ℤ := pyInt ((s.used_blocks : ℚ) * read_weight)
  let estimated_write_blocks : ℤ := (s.used_blocks : ℤ) - estimated_read_blocks
  { total_blocks := s.total_blocks
    used_blocks := s.used_blocks
    dirty_blocks := s.dirty_blocks
    cache_usage_pct := cache_usage_pct
    dirty_ratio_pct := dirty_ratio_pct
    hit_ratio_pct := hit_ratio_pct
    read_hit_ratio_pct := read_hit_ratio_pct
    write_hit_ratio_pct := write_hit_ratio_pct
    read_hits := s.read_hits
    read_misses := s.read_misses
    write_hits := s.write_hits
    write_misses := s.write_misses
    total_reads := total_reads
    total_writes := total_writes
    total_ops := total_ops
    block_size := block_size
    pool_size_bytes := s.pool_size_bytes
    estimated_read_blocks := estimated_read_blocks
    estimated_write_blocks := estimated_write_blocks }

/-- One append to a `deque(maxlen := cap)`: push at the tail; if the
length now exceeds the capacity, evict from the head (lines 28-32 set
the capacity, lines 416-420 append). -/
def dequeAppend (cap : ℕ) (h : List ℚ) (v : ℚ) : List ℚ :=
  let h2 := h ++ [v]
  if cap < h2.length then h2.drop (h2.length - cap) else h2

/-- The terminal-color escape strings of the `colors` dict (lines 35-44). -/
def color_reset : String := "\x1b[0m"

/-- Green foreground escape. -/
def color_green : String := "\x1b[92m"

/-- Yellow foreground escape. -/
def color_yellow : String := "\x1b[93m"

/-- Red foreground escape. -/
def color_red : String := "\x1b[91m"

/-- Blue foreground escape. -/
def color_blue : String := "\x1b[94m"

/-- Cyan foreground escape. -/
def color_cyan : String := "\x1b[96m"

/-- Bold escape. -/
def color_bold : String := "\x1b[1m"

/-- Dim escape. -/
def color_dim : String := "\x1b[2m"

/-- `self.colors.get(color, '')`: dictionary lookup with empty default. -/
def colorsGet (c : String) : String :=
  if c = "reset" then color_reset
  else if c = "green" then color_green
  else if c = "yellow" then color_yellow
  else if c = "red" then color_red
  else if c = "blue" then color_blue
  else if c = "cyan" then color_cyan
  else if c = "bold" then color_bold
  else if c = "dim" then color_dim
  else ""

/-- `update_terminal_size` (lines 51-64): `measured` is the result of
the terminal-size call (`none` when it raises), `envSize` the
environment-variable fallback (`none` when missing or unparsable, in
which case the code keeps 80x24).  Returns `(columns, lines)`. -/
def update_terminal_size (measured : Option (ℤ × ℤ)) (envSize : Option (ℤ × ℤ)) : ℤ × ℤ :=
  match measured with
  | some wh => wh
  | none =>
    match envSize with
    | some wh => wh
    | none => (80, 24)

/-- The dict returned by `get_dynamic_widths`. -/
structure Widths where
  bar_width : ℤ
  graph_width : ℤ
  terminal_width : ℤ

/-- `get_dynamic_widths` (lines 66-90) applied to the current terminal
width. -/
def get_dynamic_widths (terminal_width : ℤ) : Widths :=
  let label_space : ℤ := 20
  let percentage_space : ℤ := 8
  let margin : ℤ := 4
  let bar_width := max 20 (terminal_width - label_space - percentage_space - margin)
  let graph_label_space : ℤ := 8
  let graph_margin : ℤ := 4
  let graph_width := max 30 (terminal_width - graph_label_space - graph_margin)
  { bar_width := bar_width, graph_width := graph_width, terminal_width := terminal_width }

/-- `create_bar_graph` (lines 181-195) with an explicit width (the
`None` default merely routes through `get_dynamic_widths`). -/
def create_bar_graph (value max_value : ℚ) (width : ℕ) (color : String) : List Char :=
  let filled : ℤ := if max_value = 0 then 0 else pyInt (value / max_value * width)
  let bar := pyRepeat '█' filled ++ pyRepeat '░' ((width : ℤ) - filled)
  (colorsGet color).data ++ bar ++ color_reset.data

/-- `create_dual_cache_bar` (lines 197-229) with an explicit width.
The Python reassignments of `read_portion` / `write_portion` in the
rounding-overflow correction become the primed lets. -/
def create_dual_cache_bar (read_blocks write_blocks total_blocks width : ℕ) : List Char :=
  if total_blocks = 0 then List.replicate width '░'
  else
    let read_portion : ℤ := pyInt ((read_blocks : ℚ) / total_blocks * width)
    let write_portion : ℤ := pyInt ((write_blocks : ℚ) / total_blocks * width)
    let used_portion := read_portion + write_portion
    let read_portion2 :=
      if (width : ℤ) < used_portion then
        if write_portion ≤ read_portion then (width : ℤ) - write_portion else read_portion
      else read_portion
    let write_portion2 :=
      if (width : ℤ) < used_portion then
        if write_portion ≤ read_portion then write_portion else (width : ℤ) - read_portion
      else write_portion
    let used_portion2 := read_portion2 + write_portion2
    let empty_portion := (width : ℤ) - used_portion2
    color_green.data ++ pyRepeat '█' read_portion2 ++ color_reset.data ++
      color_red.data ++ pyRepeat '█' write_portion2 ++ color_reset.data ++
      pyRepeat '░' empty_portion

/-- Number of visible bar cells in a rendered bar: the solid and free
block glyphs; escape-sequence characters are zero-width. -/
def barCells (l : List Char) : ℕ := (l.filter (fun c => c == '█' || c == '░')).length

/-- Python `min(data)` over a list of rationals (0 for the empty list,
which the caller excludes). -/
def listMin : List ℚ → ℚ
  | [] => 0
  | x :: xs => xs.foldl min x

/-- Python `max(data)` over a list of rationals. -/
def listMax : List ℚ → ℚ
  | [] => 0
  | x :: xs => xs.foldl max x

/-- `line_list = list(lines[y]); line_list[x] = '●'; lines[y] = join`:
replace the character at column `x` of row `y` (out-of-range indices
leave the grid unchanged, which the clamping of `y` makes unreachable
for the heights the program uses). -/
def setCell (lines : List (List Char)) (y x : ℕ) : List (List Char) :=
  lines.set y ((lines.getD y []).set x '●')

/-- The plotting loop of `create_line_graph` (lines 246-258): walk the
selected points with their column index `x`, breaking once `x ≥ width`,
and mark each point's row. -/
def plotPoints (height width : ℕ) (min_val range_val : ℚ) :
    ℕ → List ℚ → List (List Char) → List (List Char)
  | _, [], lines => lines
  | x, v :: vs, lines =>
    if width ≤ x then lines
    else
      let y : ℤ := (height : ℤ) - 1 - pyInt ((v - min_val) / range_val * ((height : ℚ) - 1))
      let y2 : ℤ := max 0 (min ((height : ℤ) - 1) y)
      plotPoints height width min_val range_val (x + 1) vs (setCell lines y2.toNat x)

/-- `create_line_graph` (lines 231-260) with an explicit width; rows
are `List Char` (the Python strings).  `data[-width:]` is the last
`width` points. -/
def create_line_graph (data : List ℚ) (width height : ℕ) : List (List Char) :=
  if data.length < 2 then List.replicate height []
  else
    let min_val := listMin data
    let max_val := listMax data
    let range_val := if max_val ≠ min_val then max_val - min_val else 1
    let lines := List.replicate height (List.replicate width ' ')
    plotPoints height width min_val range_val 0 (data.drop (data.length - width)) lines

/-- One-decimal rendering of a non-negative rational, standing in for
Python `f-string` `:.1f` formatting (the Python float rounds half to
even in binary; this exact-arithmetic stand-in rounds half up). -/
def fmt1 (q : ℚ) : String :=
  let n : ℤ := ⌊q * 10 + 1/2⌋
  let m := n.natAbs
  let s := toString (m / 10) ++ "." ++ toString (m % 10)
  if n < 0 then "-" ++ s else s

/-- The unit-scaling loop shared by `format_size` and `format_bytes`:
divide by 1024 until the value fits the current unit. -/
def humanUnits : ℚ → List String → String
  | b, [] => fmt1 b ++ "PB"
  | b, u :: us => if b < 1024 then fmt1 b ++ u else humanUnits (b / 1024) us

/-- `format_size` (lines 266-275): block count to human-readable size. -/
def format_size (blocks : ℕ) (block_size : ℕ) : String :=
  humanUnits ((blocks * block_size : ℕ) : ℚ) ["B", "KB", "MB", "GB", "TB"]

/-- `format_bytes` (lines 277-283). -/
def format_bytes (bytes_size : ℕ) : String :=
  humanUnits (bytes_size : ℚ) ["B", "KB", "MB", "GB", "TB"]

/-- Python `f-string` `:3d` padding of a natural number. -/
def pad3 (n : ℕ) : String :=
  let s := toString n
  if s.length < 3 then String.mk (List.replicate (3 - s.length) ' ') ++ s else s

/-- The five bounded history series owned by the monitor
(lines 28-32). -/
structure MonitorState where
  cache_usage_history : List ℚ
  hit_ratio_history : List ℚ
  dirty_ratio_history : List ℚ
  read_hit_ratio_history : List ℚ
  write_hit_ratio_history : List ℚ

/-- One historical graph block of `display_stats` (lines 363-397):
title line, one labelled row per graph line, the dashed axis and the
samples caption.  `axis_width` is the `graph_width` local that the
Python computes once from the first graph's rows and reuses for every
axis. -/
def graphSection (title : String) (color : String) (histData : List ℚ)
    (graph_width : ℕ) (axis_width : ℕ) : List String :=
  let ls := create_line_graph histData graph_width 8
  [color ++ title ++ color_reset]
    ++ (List.range ls.length).map
      (fun i => pad3 (100 - i * 100 / ls.length) ++ "%|" ++ String.mk (ls.getD i []) ++ "|")
    ++ ["    " ++ String.mk (List.replicate axis_width '-'),
        "    " ++ toString histData.length ++ " samples ago"
          ++ String.mk (List.replicate (axis_width - 15) ' ') ++ "now"]

/-- The successful-sample frame of `display_stats` (lines 292-401), as
the list of printed lines. -/
def statsFrame (vg_name lv_name : String) (m : Stats) (hist : MonitorState)
    (w : Widths) (terminal_height : ℤ) : List String :=
  let header_text := "cachetop - " ++ vg_name ++ "/" ++ lv_name
  let separator := pyRepeat '=' (min ((header_text.length : ℤ) + 10) w.terminal_width)
  let cache_pool_size := format_bytes m.pool_size_bytes
  let used_cache_size := format_size m.used_blocks m.block_size
  let dirty_cache_size := format_size m.dirty_blocks m.block_size
  let read_cache_size := format_size m.estimated_read_blocks.toNat m.block_size
  let write_cache_size := format_size m.estimated_write_blocks.toNat m.block_size
  let dual_cache_bar := create_dual_cache_bar m.estimated_read_blocks.toNat
    m.estimated_write_blocks.toNat m.total_blocks w.bar_width.toNat
  let hit_color := if m.hit_ratio_pct > 80 then "green"
    else if m.hit_ratio_pct > 60 then "yellow" else "red"
  let read_hit_color := if m.read_hit_ratio_pct > 80 then "green"
    else if m.read_hit_ratio_pct > 60 then "yellow" else "red"
  let write_hit_color := if m.write_hit_ratio_pct > 80 then "green"
    else if m.write_hit_ratio_pct > 60 then "yellow" else "red"
  let headerLines :=
    [color_bold ++ color_cyan ++ header_text ++ color_reset, String.mk separator, "",
     color_bold ++ "Current Statistics:" ++ color_reset,
     "Cache Pool:   " ++ cache_pool_size ++ " total",
     "Cache Usage:  " ++ fmt1 m.cache_usage_pct ++ "% (" ++ used_cache_size ++ " used)",
     "  ├─ Reads:   ~" ++ read_cache_size
       ++ " (" ++ toString m.estimated_read_blocks ++ " blocks)",
     "  └─ Writes:  ~" ++ write_cache_size
       ++ " (" ++ toString m.estimated_write_blocks ++ " blocks)",
     "Dirty Blocks: " ++ fmt1 m.dirty_ratio_pct ++ "% (" ++ dirty_cache_size ++ " dirty)",
     "Hit Ratio:    " ++ fmt1 m.hit_ratio_pct
       ++ "% (" ++ toString m.total_ops ++ " total operations)",
     "Read Hits:    " ++ fmt1 m.read_hit_ratio_pct
       ++ "% (" ++ toString m.total_reads ++ " read operations)",
     "Write Hits:   " ++ fmt1 m.write_hit_ratio_pct
       ++ "% (" ++ toString m.total_writes ++ " write operations)", ""]
  let barLines :=
    [color_bold ++ "Real-time Status:" ++ color_reset,
     "Cache Usage   [" ++ String.mk dual_cache_bar ++ "] " ++ fmt1 m.cache_usage_pct ++ "%",
     "              " ++ color_green ++ "█" ++ color_reset ++ " Read cache  "
       ++ color_red ++ "█" ++ color_reset ++ " Write cache  ░ Free",
     "Dirty Blocks  ["
       ++ String.mk (create_bar_graph m.dirty_ratio_pct 100 w.bar_width.toNat ("blue"))
       ++ "] " ++ fmt1 m.dirty_ratio_pct ++ "%",
     "Hit Ratio     ["
       ++ String.mk (create_bar_graph m.hit_ratio_pct 100 w.bar_width.toNat hit_color)
       ++ "] " ++ fmt1 m.hit_ratio_pct ++ "%",
     "Read Hits     ["
       ++ String.mk (create_bar_graph m.read_hit_ratio_pct 100 w.bar_width.toNat read_hit_color)
       ++ "] " ++ fmt1 m.read_hit_ratio_pct ++ "%",
     "Write Hits    ["
       ++ String.mk (create_bar_graph m.write_hit_ratio_pct 100 w.bar_width.toNat write_hit_color)
       ++ "] " ++ fmt1 m.write_hit_ratio_pct ++ "%", ""]
  let historyLines :=
    if 1 < hist.cache_usage_history.length then
      let usage_lines := create_line_graph hist.cache_usage_history w.graph_width.toNat 8
      let axis_width := (usage_lines.headD []).length
      [color_bold ++ "Historical Trends (last "
         ++ toString hist.cache_usage_history.length ++ " samples):" ++ color_reset, ""]
        ++ graphSection ("Cache Usage Over Time:") color_green hist.cache_usage_history
          w.graph_width.toNat axis_width ++ [""]
        ++ graphSection ("Hit Ratio Over Time:") color_blue hist.hit_ratio_history
          w.graph_width.toNat axis_width ++ [""]
        ++ graphSection ("Read Hit Ratio Over Time:") color_cyan hist.read_hit_ratio_history
          w.graph_width.toNat axis_width ++ [""]
        ++ graphSection ("Write Hit Ratio Over Time:") color_yellow hist.write_hit_ratio_history
          w.graph_width.toNat axis_width
    else []
  let statusLines :=
    ["", color_dim ++ "Terminal: " ++ toString w.terminal_width ++ "x"
       ++ toString terminal_height ++ " | Bar width: " ++ toString w.bar_width
       ++ " | Graph width: " ++ toString w.graph_width
       ++ " | Press Ctrl+C to exit" ++ color_reset]
  headerLines ++ barLines ++ historyLines ++ statusLines

/-- `display_stats` (lines 285-401): on a missing sample print the
error frame (lines 287-290) and return; otherwise render the full
frame. -/
def display_stats (vg_name lv_name : String) (stats : Option Stats)
    (hist : MonitorState) (w : Widths) (terminal_height : ℤ) : List String :=
  match stats with
  | none =>
    [color_red ++ "Error: Could not retrieve LVM cache statistics" ++ color_reset,
     "Make sure the volume group and logical volume exist and you have sudo privileges."]
  | some m => statsFrame vg_name lv_name m hist w terminal_height

/-- One iteration of the `while True` body of `run` (lines 411-423):
poll result in, updated histories and rendered frame out.  History is
appended only when a sample is present, and `display_stats` reads the
already-updated histories. -/
def tick (cap : ℕ) (vg_name lv_name : String) (w : Widths) (terminal_height : ℤ)
    (st : MonitorState) (sample : Option RawSample) : MonitorState × List String :=
  let stats := sample.map get_lvm_cache_stats
  let st2 :=
    match stats with
    | some m =>
      { cache_usage_history := dequeAppend cap st.cache_usage_history m.cache_usage_pct
        hit_ratio_history := dequeAppend cap st.hit_ratio_history m.hit_ratio_pct
        dirty_ratio_history := dequeAppend cap st.dirty_ratio_history m.dirty_ratio_pct
        read_hit_ratio_history :=
          dequeAppend cap st.read_hit_ratio_history m.read_hit_ratio_pct
        write_hit_ratio_history :=
          dequeAppend cap st.write_hit_ratio_history m.write_hit_ratio_pct }
    | none => st
  (st2, display_stats vg_name lv_name stats st2 w terminal_height)

/-- The monitor loop of `run` over a finite list of poll results: each
tick is processed in order and its frame recorded; the loop never stops
of its own accord (only the external interrupt ends it). -/
def runSteps (cap : ℕ) (vg_name lv_name : String) (w : Widths) (terminal_height : ℤ) :
    MonitorState → List (Option RawSample) → MonitorState × List (List String)
  | st, [] => (st, [])
  | st, s :: rest =>
    let r := tick cap vg_name lv_name w terminal_height st s
    let rr := runSteps cap vg_name lv_name w terminal_height r.1 rest
    (rr.1, r.2 :: rr.2)

/-- A sample whose counters are all zero. -/
def sampleZero : RawSample := ⟨0, 0, 0, 0, 0, 0, 0, 0⟩

/-- A sample with one cache block and an (unrealistic but type-correct)
zero-byte pool. -/
def sampleSmallPool : RawSample := ⟨1, 0, 0, 0, 0, 0, 0, 0⟩

/-- A sample with one cache block backed by a 4096-byte pool. -/
def samplePool : RawSample := ⟨1, 0, 0, 0, 0, 0, 0, 4096⟩

/-! Helper lemmas shared by the claim theorems. -/

/-- Python truncation agrees with the floor on non-negative values. -/
theorem pyInt_eq_floor (q : ℚ) (h : 0 ≤ q) : pyInt q = ⌊q⌋ := by
  unfold pyInt
  rw [if_neg (not_lt.mpr h)]

/-- A proportional cell count `⌊a/b * w⌋` is non-negative and, when the
numerator is at most the denominator, at most `w`. -/
theorem portion_bounds (a b w : ℕ) (hb : 0 < b) (hab : a ≤ b) :
    0 ≤ ⌊(a : ℚ) / b * w⌋ ∧ ⌊(a : ℚ) / b * w⌋ ≤ (w : ℤ) := by
  have hq : (0 : ℚ) ≤ (a : ℚ) / b * w := by positivity
  constructor
  · exact Int.floor_nonneg.mpr hq
  · have h1 : (a : ℚ) / b ≤ 1 := by
      rw [div_le_one (by exact_mod_cast hb)]
      exact_mod_cast hab
    have h2 : (a : ℚ) / b * w ≤ (w : ℚ) := by
      calc (a : ℚ) / b * w ≤ 1 * w := by
            apply mul_le_mul_of_nonneg_right h1 (by positivity)
        _ = (w : ℚ) := one_mul _
    calc ⌊(a : ℚ) / b * w⌋ ≤ ⌊(w : ℚ)⌋ := Int.floor_le_floor h2
      _ = (w : ℤ) := Int.floor_natCast w

/-- Visible cells distribute over concatenation. -/
theorem barCells_append (l₁ l₂ : List Char) :
    barCells (l₁ ++ l₂) = barCells l₁ + barCells l₂ := by
  unfold barCells
  rw [List.filter_append, List.length_append]

/-- A run of solid glyphs is all visible. -/
theorem barCells_replicate_solid (n : ℕ) : barCells (List.replicate n '█') = n := by
  induction n with
  | zero => rfl
  | succ k ih =>
    unfold barCells at ih ⊢
    rw [List.replicate_succ, List.filter_cons]
    simp [ih]

/-- A run of free glyphs is all visible. -/
theorem barCells_replicate_free (n : ℕ) : barCells (List.replicate n '░') = n := by
  induction n with
  | zero => rfl
  | succ k ih =>
    unfold barCells at ih ⊢
    rw [List.replicate_succ, List.filter_cons]
    simp [ih]

/-- Color escape sequences contribute no visible cells. -/
theorem barCells_colorsGet (c : String) : barCells (colorsGet c).data = 0 := by
  unfold colorsGet
  split_ifs <;> rfl

/-- The reset escape contributes no visible cells. -/
theorem barCells_reset : barCells color_reset.data = 0 := rfl

/-- The green escape contributes no visible cells. -/
theorem barCells_green : barCells color_green.data = 0 := rfl

/-- The red escape contributes no visible cells. -/
theorem barCells_red : barCells color_red.data = 0 := rfl

/-- Folding deque appends over a value list: starting from a buffer not
over capacity, the result is the tail of the total append stream that
fits the capacity. -/
theorem foldl_dequeAppend (cap : ℕ) (vs : List ℚ) :
    ∀ h : List ℚ, h.length ≤ cap →
      vs.foldl (dequeAppend cap) h = (h ++ vs).drop (h.length + vs.length - cap) := by
  induction vs with
  | nil =>
    intro h hh
    simp [Nat.sub_eq_zero_of_le hh]
  | cons v t ih =>
    intro h hh
    rw [List.foldl_cons]
    by_cases hcap : cap < h.length + 1
    · have hlen : h.length = cap := by omega
      have hstep : dequeAppend cap h v = (h ++ [v]).drop 1 := by
        unfold dequeAppend
        simp only [List.length_append, List.length_singleton]
        rw [if_pos hcap]
        congr 1
        omega
      rw [hstep]
      have hdlen : ((h ++ [v]).drop 1).length = cap := by
        simp [hlen]
      rw [ih _ (le_of_eq hdlen), hdlen]
      have h2 : (h ++ [v]).drop 1 ++ t = ((h ++ [v]) ++ t).drop 1 :=
        (List.drop_append_of_le_length (by simp)).symm
      rw [h2, List.drop_drop]
      have h3 : (h ++ [v]) ++ t = h ++ v :: t := by simp
      rw [h3]
      congr 1
      simp only [List.length_cons]
      omega
    · have hstep : dequeAppend cap h v = h ++ [v] := by
        unfold dequeAppend
        simp only [List.length_append, List.length_singleton]
        rw [if_neg hcap]
      rw [hstep]
      rw [ih _ (by simp; omega)]
      have h3 : (h ++ [v]) ++ t = h ++ v :: t := by simp
      rw [h3]
      simp only [List.length_append, List.length_singleton, List.length_cons,
        List.length_nil]
      congr 1
      omega

/-- `plotPoints` keeps the number of rows. -/
theorem plotPoints_length (height width : ℕ) (mn rv : ℚ) :
    ∀ (pts : List ℚ) (x : ℕ) (lines : List (List Char)),
      (plotPoints height width mn rv x pts lines).length = lines.length := by
  intro pts
  induction pts with
  | nil => intro x lines; rfl
  | cons v vs ih =>
    intro x lines
    unfold plotPoints
    by_cases hx : width ≤ x
    · rw [if_pos hx]
    · rw [if_neg hx]
      rw [ih]
      unfold setCell
      exact List.length_set _ _ _

/-- A property of rows that holds everywhere and at the replacement row
still holds everywhere after `List.set`. -/
theorem forall_mem_set {α : Type} {p : α → Prop} :
    ∀ (l : List α) (n : ℕ) (r : α), (∀ x ∈ l, p x) → p r → ∀ x ∈ l.set n r, p x := by
  intro l
  induction l with
  | nil => intro n r _ _ x hx; simp at hx
  | cons a t ih =>
    intro n r hall hr x hx
    cases n with
    | zero =>
      rw [List.set_cons_zero] at hx
      rcases List.mem_cons.mp hx with h | h
      · exact h ▸ hr
      · exact hall x (List.mem_cons_of_mem a h)
    | succ k =>
      rw [List.set_cons_succ] at hx
      rcases List.mem_cons.mp hx with h | h
      · exact h ▸ hall a (List.mem_cons_self a t)
      · exact ih k r (fun y hy => hall y (List.mem_cons_of_mem a hy)) hr x h

/-- `List.getD` yields an element of the list or the default. -/
theorem getD_prop {α : Type} {p : α → Prop} :
    ∀ (l : List α) (n : ℕ) (d : α), (∀ x ∈ l, p x) → p d → p (l.getD n d) := by
  intro l
  induction l with
  | nil => intro n d _ hd; simpa [List.getD] using hd
  | cons a t ih =>
    intro n d hall hd
    cases n with
    | zero => simpa [List.getD] using hall a (List.mem_cons_self a t)
    | succ k =>
      simp only [List.getD_cons_succ]
      exact ih k d (fun y hy => hall y (List.mem_cons_of_mem a hy)) hd

/-- `plotPoints` never widens a row beyond the width bound. -/
theorem plotPoints_row_le (height width wdt : ℕ) (mn rv : ℚ) :
    ∀ (pts : List ℚ) (x : ℕ) (lines : List (List Char)),
      (∀ row ∈ lines, row.length ≤ wdt) →
      ∀ row ∈ plotPoints height width mn rv x pts lines, row.length ≤ wdt := by
  intro pts
  induction pts with
  | nil => intro x lines hall; exact hall
  | cons v vs ih =>
    intro x lines hall
    unfold plotPoints
    by_cases hx : width ≤ x
    · rw [if_pos hx]; exact hall
    · rw [if_neg hx]
      apply ih
      apply forall_mem_set _ _ _ hall
      rw [List.length_set]
      exact getD_prop lines _ [] hall (by simp)

/-! The claim theorems. -/

/-- C1: for every RawSample the metric derivation is total and every
ratio with a zero denominator yields 0: with `total_blocks = 0` the
cache-usage and dirty percentages are 0 and `block_size` is 4096; with
`total_ops = 0` the hit ratio is 0; with `total_reads = 0` the
read-hit ratio is 0; with `total_writes = 0` the write-hit ratio
is 0. -/
theorem metric_zero_denominator_fallbacks (s : RawSample) :
    (s.total_blocks = 0 →
      (get_lvm_cache_stats s).cache_usage_pct = 0 ∧
      (get_lvm_cache_stats s).dirty_ratio_pct = 0 ∧
      (get_lvm_cache_stats s).block_size = 4096) ∧
    ((get_lvm_cache_stats s).total_ops = 0 → (get_lvm_cache_stats s).hit_ratio_pct = 0) ∧
    ((get_lvm_cache_stats s).total_reads = 0 →
      (get_lvm_cache_stats s).read_hit_ratio_pct = 0) ∧
    ((get_lvm_cache_stats s).total_writes = 0 →
      (get_lvm_cache_stats s).write_hit_ratio_pct = 0) := by
  refine ⟨?_, ?_, ?_, ?_⟩ <;> dsimp only [get_lvm_cache_stats] <;> intro h <;> simp [h]

/-- Witness for C1 at the all-zero sample. -/
theorem metric_zero_denominator_fallbacks_witness :
    (get_lvm_cache_stats sampleZero).cache_usage_pct = 0 ∧
    (get_lvm_cache_stats sampleZero).dirty_ratio_pct = 0 ∧
    (get_lvm_cache_stats sampleZero).block_size = 4096 ∧
    (get_lvm_cache_stats sampleZero).hit_ratio_pct = 0 ∧
    (get_lvm_cache_stats sampleZero).read_hit_ratio_pct = 0 ∧
    (get_lvm_cache_stats sampleZero).write_hit_ratio_pct = 0 := by
  obtain ⟨h1, h2, h3, h4⟩ := metric_zero_denominator_fallbacks sampleZero
  exact ⟨(h1 rfl).1, (h1 rfl).2.1, (h1 rfl).2.2, h2 rfl, h3 rfl, h4 rfl⟩

/-- C2: the estimated read blocks are the floor of the used blocks
weighted by the read share (one half when there are no operations), the
estimated write blocks are the remainder, the two partition
`used_blocks` exactly, and both are non-negative. -/
theorem estimated_split (s : RawSample) :
    (get_lvm_cache_stats s).estimated_read_blocks =
      ⌊(s.used_blocks : ℚ) *
        (if (get_lvm_cache_stats s).total_ops > 0 then
          ((get_lvm_cache_stats s).total_reads : ℚ) / (get_lvm_cache_stats s).total_ops
        else 1/2)⌋ ∧
    (get_lvm_cache_stats s).estimated_write_blocks =
      (s.used_blocks : ℤ) - (get_lvm_cache_stats s).estimated_read_blocks ∧
    (get_lvm_cache_stats s).estimated_read_blocks +
      (get_lvm_cache_stats s).estimated_write_blocks = (s.used_blocks : ℤ) ∧
    0 ≤ (get_lvm_cache_stats s).estimated_read_blocks ∧
    0 ≤ (get_lvm_cache_stats s).estimated_write_blocks := by
  dsimp only [get_lvm_cache_stats]
  set R := s.read_hits + s.read_misses with hR
  set W := s.write_hits + s.write_misses with hW
  set q : ℚ := if R + W > 0 then (R : ℚ) / (R + W : ℕ) else 1/2 with hq
  have hq0 : 0 ≤ q := by
    rw [hq]
    split_ifs with h
    · positivity
    · norm_num
  have hq1 : q ≤ 1 := by
    rw [hq]
    split_ifs with h
    · rw [div_le_one (by exact_mod_cast h)]
      exact_mod_cast Nat.le_add_right R W
    · norm_num
  have hm0 : (0 : ℚ) ≤ (s.used_blocks : ℚ) * q := mul_nonneg (by positivity) hq0
  have hpy : pyInt ((s.used_blocks : ℚ) * q) = ⌊(s.used_blocks : ℚ) * q⌋ :=
    pyInt_eq_floor _ hm0
  have hub : ⌊(s.used_blocks : ℚ) * q⌋ ≤ (s.used_blocks : ℤ) := by
    have h1 : (s.used_blocks : ℚ) * q ≤ (s.used_blocks : ℚ) := by
      calc (s.used_blocks : ℚ) * q ≤ (s.used_blocks : ℚ) * 1 :=
            mul_le_mul_of_nonneg_left hq1 (by positivity)
        _ = (s.used_blocks : ℚ) := mul_one _
    calc ⌊(s.used_blocks : ℚ) * q⌋ ≤ ⌊(s.used_blocks : ℚ)⌋ := Int.floor_le_floor h1
      _ = (s.used_blocks : ℤ) := Int.floor_natCast _
  have hlb : 0 ≤ ⌊(s.used_blocks : ℚ) * q⌋ := Int.floor_nonneg.mpr hm0
  refine ⟨by rw [hpy], rfl, ?_, ?_, ?_⟩
  · rw [hpy]; ring
  · rw [hpy]; exact hlb
  · rw [hpy]; omega

/-- C5: appending `cap + k` values, `k ≥ 1`, to a history series that
is within its capacity leaves exactly `cap` values, equal to the last
`cap` values appended, in insertion order; eviction happens on the
append itself. -/
theorem history_capacity_evicts (cap k : ℕ) (h vs : List ℚ)
    (hh : h.length ≤ cap) (hlen : vs.length = cap + k) (hk : 1 ≤ k) :
    (vs.foldl (dequeAppend cap) h).length = cap ∧
    vs.foldl (dequeAppend cap) h = vs.drop k := by
  rw [foldl_dequeAppend cap vs h hh]
  have hidx : h.length + vs.length - cap = h.length + k := by omega
  rw [hidx]
  constructor
  · rw [List.length_drop, List.length_append]
    omega
  · rw [← List.drop_drop, List.drop_left]

/-- Witness for C5: capacity 2, four appends onto a one-element
series. -/
theorem history_capacity_evicts_witness :
    (([1, 2, 3] : List ℚ).foldl (dequeAppend 2) [5]).length = 2 ∧
    ([1, 2, 3] : List ℚ).foldl (dequeAppend 2) [5] = ([1, 2, 3] : List ℚ).drop 1 :=
  history_capacity_evicts 2 1 [5] [1, 2, 3] (by decide) (by decide) (by decide)

/-- C6: a tick whose poll yields no sample leaves every history series
untouched, renders exactly the two-line error frame (whose second line
tells the operator to verify volume existence and privileges), and the
loop goes on to process the remaining ticks. -/
theorem unavailable_tick_skips_history (cap : ℕ) (vg lv : String) (w : Widths)
    (th : ℤ) (st : MonitorState) (rest : List (Option RawSample)) :
    (tick cap vg lv w th st none).1 = st ∧
    (tick cap vg lv w th st none).2 =
      [color_red ++ "Error: Could not retrieve LVM cache statistics" ++ color_reset,
       "Make sure the volume group and logical volume exist and you have sudo privileges."] ∧
    "Make sure the volume group and logical volume exist and you have sudo privileges."
      ∈ (tick cap vg lv w th st none).2 ∧
    runSteps cap vg lv w th st (none :: rest) =
      ((runSteps cap vg lv w th st rest).1,
        (tick cap vg lv w th st none).2 :: (runSteps cap vg lv w th st rest).2) := by
  refine ⟨rfl, rfl, ?_, rfl⟩
  simp [tick, display_stats]

/-- C7 counterexample: with one total block and a zero-byte pool the
derived block size is 0, not a positive integer. -/
theorem block_size_zero_counterexample :
    (get_lvm_cache_stats sampleSmallPool).block_size = 0 := by decide

/-- C7 (amended): `block_size` is the floor division of the pool bytes
by the total blocks with fallback 4096 when `total_blocks = 0`; it is
positive whenever the pool has at least one byte per block (in
particular whenever `total_blocks ≤ pool_size_bytes`), but only
non-negative in general. -/
theorem block_size_floor_div (s : RawSample) :
    (get_lvm_cache_stats s).block_size =
      (if s.total_blocks > 0 then s.pool_size_bytes / s.total_blocks else 4096) ∧
    (s.total_blocks ≤ s.pool_size_bytes → 0 < (get_lvm_cache_stats s).block_size) := by
  refine ⟨rfl, ?_⟩
  intro h
  dsimp only [get_lvm_cache_stats]
  by_cases ht : s.total_blocks > 0
  · rw [if_pos ht]
    exact Nat.div_pos h ht
  · rw [if_neg ht]
    norm_num

/-- Witness for C7 (amended) at a 4096-byte one-block pool. -/
theorem block_size_floor_div_witness :
    0 < (get_lvm_cache_stats samplePool).block_size :=
  (block_size_floor_div samplePool).2 (by decide)

/-- C9 counterexample: a measured terminal width of 0 is kept as-is,
and the resulting layout is the clamped minimum (20, 30), not the
80-column layout (48, 68) the claim promises. -/
theorem layout_zero_width_counterexample :
    (get_dynamic_widths (update_terminal_size (some (0, 24)) none).1).bar_width = 20 ∧
    (get_dynamic_widths (update_terminal_size (some (0, 24)) none).1).graph_width = 30 ∧
    ¬((get_dynamic_widths (update_terminal_size (some (0, 24)) none).1).bar_width = 48 ∧
      (get_dynamic_widths (update_terminal_size (some (0, 24)) none).1).graph_width = 68) := by
  refine ⟨by decide, by decide, ?_⟩
  intro hcontra
  exact absurd hcontra.1 (by decide)

/-- C9 (amended): only an unmeasurable terminal (the size call raises
and no environment override exists) falls back to 80x24, which yields
`bar_width = 48` and `graph_width = 68`; a measured width of zero is
used as-is and yields the minimum-clamped layout
`bar_width = 20`, `graph_width = 30`. -/
theorem layout_fallbacks :
    update_terminal_size none none = (80, 24) ∧
    (get_dynamic_widths 80).bar_width = 48 ∧
    (get_dynamic_widths 80).graph_width = 68 ∧
    (∀ h : ℤ, update_terminal_size (some (0, h)) none = (0, h)) ∧
    (get_dynamic_widths 0).bar_width = 20 ∧
    (get_dynamic_widths 0).graph_width = 30 :=
  ⟨rfl, by decide, by decide, fun _ => rfl, by decide, by decide⟩

/-- C10: with `total_blocks = 0` the dual cache bar is exactly `width`
free glyphs, containing no escape characters: the zero-total guard
fires before any proportional arithmetic. -/
theorem dual_bar_zero_total (read_blocks write_blocks width : ℕ) (_hw : 0 < width) :
    create_dual_cache_bar read_blocks write_blocks 0 width = List.replicate width '░' ∧
    ∀ c ∈ create_dual_cache_bar read_blocks write_blocks 0 width, c = '░' := by
  have h : create_dual_cache_bar read_blocks write_blocks 0 width =
      List.replicate width '░' := by
    unfold create_dual_cache_bar
    rw [if_pos rfl]
  refine ⟨h, ?_⟩
  rw [h]
  intro c hc
  exact List.eq_of_mem_replicate hc

/-- Witness for C10 at width 5. -/
theorem dual_bar_zero_total_witness :
    create_dual_cache_bar 3 4 0 5 = List.replicate 5 '░' :=
  (dual_bar_zero_total 3 4 5 (by decide)).1

/-- C4 counterexample: `create_bar_graph` never clamps, so at
`value = 200`, `max_value = 100`, `width = 10` the visible bar has 20
cells, not the 10 the claim promises. -/
theorem bar_graph_unclamped_counterexample :
    barCells (create_bar_graph 200 100 10 ("green")) ≠ 10 := by
  have hfl : pyInt ((200 : ℚ) / 100 * ((10 : ℕ) : ℚ)) = 20 := by
    rw [pyInt_eq_floor _ (by norm_num)]
    norm_num
  simp only [create_bar_graph, pyRepeat]
  rw [if_neg (by norm_num : ¬(100 : ℚ) = 0), hfl]
  rw [barCells_append, barCells_append, barCells_append, barCells_colorsGet,
    barCells_reset, barCells_replicate_solid, barCells_replicate_free]
  decide

/-- C4 (amended): for `0 ≤ value ≤ max_value` with `max_value > 0` the
filled cell count `⌊value/max_value * width⌋` already lies in
`[0, width]` (no clamping occurs, and none exists in the code), and
the bar is the color escape, `filled` solid glyphs, `width - filled`
empty glyphs and the reset escape — exactly `width` visible cells.
Outside that range the count is not clamped (see the
counterexample). -/
theorem bar_graph_in_range (value max_value : ℚ) (width : ℕ) (color : String)
    (h0 : 0 ≤ value) (h1 : value ≤ max_value) (hm : 0 < max_value) :
    0 ≤ ⌊value / max_value * (width : ℚ)⌋ ∧
    ⌊value / max_value * (width : ℚ)⌋ ≤ (width : ℤ) ∧
    create_bar_graph value max_value width color =
      (colorsGet color).data
        ++ (List.replicate (⌊value / max_value * (width : ℚ)⌋).toNat '█'
          ++ List.replicate (width - (⌊value / max_value * (width : ℚ)⌋).toNat) '░')
        ++ color_reset.data ∧
    barCells (create_bar_graph value max_value width color) = width := by
  have hq0 : (0 : ℚ) ≤ value / max_value * width := by positivity
  have hdiv1 : value / max_value ≤ 1 := by
    rw [div_le_one hm]
    exact h1
  have hub : value / max_value * width ≤ (width : ℚ) := by
    calc value / max_value * width ≤ 1 * width :=
          mul_le_mul_of_nonneg_right hdiv1 (by positivity)
      _ = (width : ℚ) := one_mul _
  have hf0 : 0 ≤ ⌊value / max_value * (width : ℚ)⌋ := Int.floor_nonneg.mpr hq0
  have hfw : ⌊value / max_value * (width : ℚ)⌋ ≤ (width : ℤ) := by
    calc ⌊value / max_value * (width : ℚ)⌋ ≤ ⌊(width : ℚ)⌋ := Int.floor_le_floor hub
      _ = (width : ℤ) := Int.floor_natCast _
  have htn : ((width : ℤ) - ⌊value / max_value * (width : ℚ)⌋).toNat =
      width - (⌊value / max_value * (width : ℚ)⌋).toNat := by omega
  have heq : create_bar_graph value max_value width color =
      (colorsGet color).data
        ++ (List.replicate (⌊value / max_value * (width : ℚ)⌋).toNat '█'
          ++ List.replicate (width - (⌊value / max_value * (width : ℚ)⌋).toNat) '░')
        ++ color_reset.data := by
    simp only [create_bar_graph, pyRepeat]
    rw [if_neg (ne_of_gt hm), pyInt_eq_floor _ hq0, htn]
  refine ⟨hf0, hfw, heq, ?_⟩
  rw [heq, barCells_append, barCells_append, barCells_colorsGet, barCells_reset,
    barCells_append, barCells_replicate_solid, barCells_replicate_free]
  omega

/-- Witness for C4 (amended) at value 50 of 100 over width 10. -/
theorem bar_graph_in_range_witness :
    barCells (create_bar_graph 50 100 10 ("green")) = 10 :=
  (bar_graph_in_range 50 100 10 ("green") (by norm_num) (by norm_num)
    (by norm_num)).2.2.2

/-- C3 counterexample: with degenerate inputs (block counts exceeding
the total) the correction makes a segment count negative and the bar
renders 20 visible cells instead of `width = 10`: the claim's "visible
length exactly width" does not hold for every call. -/
theorem dual_bar_overrun_counterexample :
    barCells (create_dual_cache_bar 2 2 1 10) ≠ 10 := by
  have hfl : pyInt (((2 : ℕ) : ℚ) / ((1 : ℕ) : ℚ) * ((10 : ℕ) : ℚ)) = 20 := by
    rw [pyInt_eq_floor _ (by positivity)]
    push_cast
    norm_num
  simp only [create_dual_cache_bar, pyRepeat]
  rw [if_neg (by decide : ¬(1 : ℕ) = 0), hfl]
  decide

/-- C3 (amended): provided `read_blocks ≤ total_blocks` and
`write_blocks ≤ total_blocks` (true at the call site, where the two
arguments partition `used_blocks`), the initial segment sizes are the
floors of the proportional formulas; on rounding overflow the larger
segment is shrunk so the sum is exactly `width`; post-correction
`read_cells + write_cells ≤ width` with both segments non-negative,
and the bar is the read segment, the write segment and
`width - (read_cells + write_cells)` empty cells — exactly `width`
visible cells. -/
theorem dual_bar_rounding_correction (rb wb tb w : ℕ) (rp wp rc wc : ℤ)
    (htb : 0 < tb) (hw : 0 < w) (hrb : rb ≤ tb) (hwb : wb ≤ tb)
    (hrp : rp = ⌊(rb : ℚ) / tb * w⌋) (hwp : wp = ⌊(wb : ℚ) / tb * w⌋)
    (hrc : rc = if (w : ℤ) < rp + wp then
        (if wp ≤ rp then (w : ℤ) - wp else rp) else rp)
    (hwc : wc = if (w : ℤ) < rp + wp then
        (if wp ≤ rp then wp else (w : ℤ) - rp) else wp) :
    rc + wc ≤ (w : ℤ) ∧ 0 ≤ rc ∧ 0 ≤ wc ∧
    ((w : ℤ) < rp + wp → rc + wc = (w : ℤ)) ∧
    create_dual_cache_bar rb wb tb w =
      color_green.data ++ List.replicate rc.toNat '█' ++ color_reset.data
        ++ color_red.data ++ List.replicate wc.toNat '█' ++ color_reset.data
        ++ List.replicate ((w : ℤ) - (rc + wc)).toNat '░' ∧
    barCells (create_dual_cache_bar rb wb tb w) = w := by
  obtain ⟨hrp0, hrpw⟩ : 0 ≤ rp ∧ rp ≤ (w : ℤ) := by
    rw [hrp]; exact portion_bounds rb tb w htb hrb
  obtain ⟨hwp0, hwpw⟩ : 0 ≤ wp ∧ wp ≤ (w : ℤ) := by
    rw [hwp]; exact portion_bounds wb tb w htb hwb
  have hsum : rc + wc ≤ (w : ℤ) := by
    rw [hrc, hwc]; split_ifs <;> omega
  have hrc0 : 0 ≤ rc := by
    rw [hrc]; split_ifs <;> omega
  have hwc0 : 0 ≤ wc := by
    rw [hwc]; split_ifs <;> omega
  have hexact : (w : ℤ) < rp + wp → rc + wc = (w : ℤ) := by
    intro hov
    rw [hrc, hwc]; split_ifs <;> omega
  have hbar : create_dual_cache_bar rb wb tb w =
      color_green.data ++ List.replicate rc.toNat '█' ++ color_reset.data
        ++ color_red.data ++ List.replicate wc.toNat '█' ++ color_reset.data
        ++ List.replicate ((w : ℤ) - (rc + wc)).toNat '░' := by
    simp only [create_dual_cache_bar, pyRepeat]
    rw [if_neg (Nat.pos_iff_ne_zero.mp htb)]
    rw [pyInt_eq_floor _ (by positivity), pyInt_eq_floor _ (by positivity)]
    rw [← hrp, ← hwp, ← hrc, ← hwc]
  have hcells : barCells (create_dual_cache_bar rb wb tb w) = w := by
    rw [hbar]
    rw [barCells_append, barCells_append, barCells_append, barCells_append,
      barCells_append, barCells_append]
    rw [barCells_green, barCells_reset, barCells_red, barCells_replicate_solid,
      barCells_replicate_solid, barCells_replicate_free]
    omega
  exact ⟨hsum, hrc0, hwc0, hexact, hbar, hcells⟩

/-- Witness for C3 (amended): blocks 3 and 2 of 4 over width 10 round
to 7 + 5 > 10 cells, the read segment is shrunk to 5 and the bar shows
exactly 10 cells. -/
theorem dual_bar_rounding_correction_witness :
    barCells (create_dual_cache_bar 3 2 4 10) = 10 :=
  (dual_bar_rounding_correction 3 2 4 10 7 5 5 5 (by decide) (by decide)
    (by decide) (by decide) (by push_cast; norm_num) (by push_cast; norm_num)
    (by decide) (by decide)).2.2.2.2.2

/-- C8: a series with fewer than 2 points yields `height` blank lines;
in general the chart has exactly `height` rows of length at most
`width`; and for the series `[10, 20, 10, 20]` at `height = 2` and
`width = 10` the two produced rows plot the value 10 at row 1
(columns 0 and 2) and the value 20 at row 0 (columns 1 and 3), per the
normalized min/max mapping. -/
theorem line_graph_shape :
    (∀ (data : List ℚ) (width height : ℕ), data.length < 2 →
        create_line_graph data width height = List.replicate height []) ∧
    (∀ (data : List ℚ) (width height : ℕ),
        (create_line_graph data width height).length = height) ∧
    (∀ (data : List ℚ) (width height : ℕ),
        ∀ row ∈ create_line_graph data width height, row.length ≤ width) ∧
    create_line_graph [10, 20, 10, 20] 10 2 =
      [[' ', '●', ' ', '●', ' ', ' ', ' ', ' ', ' ', ' '],
       ['●', ' ', '●', ' ', ' ', ' ', ' ', ' ', ' ', ' ']] := by
  refine ⟨?_, ?_, ?_, ?_⟩
  · intro data width height h
    unfold create_line_graph
    rw [if_pos h]
  · intro data width height
    unfold create_line_graph
    split_ifs with h
    · exact List.length_replicate _ _
    · rw [plotPoints_length]
      exact List.length_replicate _ _
  · intro data width height row hrow
    unfold create_line_graph at hrow
    split_ifs at hrow with h
    · rw [List.eq_of_mem_replicate hrow]
      exact Nat.zero_le _
    · refine plotPoints_row_le height width width _ _ _ 0 _ ?_ row hrow
      intro r hr
      rw [List.eq_of_mem_replicate hr, List.length_replicate]
  · norm_num [create_line_graph, listMin, listMax, plotPoints, setCell, pyInt,
      min_def, max_def, List.getD]
    decide

/-- Witness for C8: the blank-output case at an empty series, and the
width bound at the first row of the concrete chart. -/
theorem line_graph_shape_witness :
    create_line_graph ([] : List ℚ) 3 4 = List.replicate 4 [] ∧
    ([' ', '●', ' ', '●', ' ', ' ', ' ', ' ', ' ', ' '] : List Char).length ≤ 10 := by
  constructor
  · exact line_graph_shape.1 [] 3 4 (by decide)
  · refine line_graph_shape.2.2.1 [10, 20, 10, 20] 10 2 _ ?_
    rw [line_graph_shape.2.2.2]
    exact List.mem_cons_self _ _

end Cachetop
